import Mathlib

/-!
Verification development for the v-draw video-annotation application
(src/script.js).  The JavaScript source is shallowly embedded: machine
numbers (IEEE doubles holding times, pixel coordinates and opacities)
are modelled as rationals, `Date.now()` clocks as naturals, and the
DOM/canvas collaborators as explicit state values.  Each definition
mirrors one function of the source; theorems settle the frozen claims
about them.
-/

-- =========================================================================
-- JavaScript numeric primitives
-- =========================================================================

/-- Truncation toward zero, the rounding used by the JS `%` operator. -/
def jsTrunc (q : ℚ) : ℤ :=
  if 0 ≤ q then ⌊q⌋ else ⌈q⌉

/-- Remainder of the JS `%` operator on finite numbers with a nonzero
divisor: `a % b = a - b * trunc (a / b)`. -/
def jsMod (a b : ℚ) : ℚ :=
  a - b * (jsTrunc (a / b) : ℚ)

/-- Padding of `String.prototype.padStart(n, c)`: prepend copies of `c`
until the length reaches `n`; longer strings are returned unchanged. -/
def jsPadStart (n : ℕ) (c : Char) (s : String) : String :=
  if n ≤ s.length then s else String.mk (List.replicate (n - s.length) c) ++ s

-- =========================================================================
-- TimeUtils (src/script.js lines 380-395)
-- =========================================================================

/-- Embedding of `TimeUtils.format`: seconds to `MM:SS` or `HH:MM:SS`.
`Math.floor` is `Int.floor` and `%` is `jsMod`, exactly as in the source. -/
def TimeUtils.format (seconds : ℚ) : String :=
  let hours : ℤ := ⌊seconds / 3600⌋
  let minutes : ℤ := ⌊jsMod seconds 3600 / 60⌋
  let secs : ℤ := ⌊jsMod seconds 60⌋
  if hours = 0 then
    jsPadStart 2 '0' (toString minutes) ++ ":" ++ jsPadStart 2 '0' (toString secs)
  else
    jsPadStart 2 '0' (toString hours) ++ ":" ++ jsPadStart 2 '0' (toString minutes)
      ++ ":" ++ jsPadStart 2 '0' (toString secs)

/-- Hour field demanded by the claim: `floor (s / 3600)`. -/
def clockHourField (s : ℚ) : ℤ := ⌊s / 3600⌋

/-- Minute field demanded by the claim: `floor ((s mod 3600) / 60)` with the
mathematical (floor-based) modulus. -/
def clockMinuteField (s : ℚ) : ℤ := ⌊(s - 3600 * (⌊s / 3600⌋ : ℚ)) / 60⌋

/-- Second field demanded by the claim: `floor (s mod 60)` with the
mathematical (floor-based) modulus. -/
def clockSecondField (s : ℚ) : ℤ := ⌊s - 60 * (⌊s / 60⌋ : ℚ)⌋

-- =========================================================================
-- TimestampManager (src/script.js lines 449-580)
-- =========================================================================

/-- Entry of `AppState.timestampedDrawings` as built by
`TimestampManager.save`.  `drawingData` is the opaque encoded snapshot
(data URL); `created` is the opaque `toLocaleString` stamp. -/
structure TimestampEntry where
  id : ℕ
  time : ℚ
  timeFormatted : String
  drawingData : String
  created : String
  videoTimestamp : String
deriving DecidableEq

/-- Embedding of `TimestampManager.save` restricted to its effect on the
entry list: `find` the first entry within 1 second of `currentTime` and
mutate it in place, otherwise `push` a fresh entry built from
`Date.now()` (`newId`), the current time and the snapshot. -/
def TimestampManager.save :
    List TimestampEntry → ℚ → String → ℕ → String → List TimestampEntry
  | [], currentTime, drawingData, newId, nowStr =>
      [⟨newId, currentTime, TimeUtils.format currentTime, drawingData, nowStr,
        TimeUtils.format currentTime⟩]
  | d :: rest, currentTime, drawingData, newId, nowStr =>
      if |d.time - currentTime| < 1 then
        { d with drawingData := drawingData, created := nowStr } :: rest
      else
        d :: TimestampManager.save rest currentTime drawingData newId nowStr

/-- Embedding of the lookup inside `TimestampManager.checkAndDisplayDrawing`:
`find` the first entry `d` with `currentTime >= d.time` such that, if some
entry has a larger time (the doubled condition of the source), the current
time is below the time of the first such entry in array order.  The inner
`none` branch is unreachable because both inner `find` calls use equivalent
predicates. -/
def TimestampManager.activeDrawing
    (entries : List TimestampEntry) (currentTime : ℚ) : Option TimestampEntry :=
  entries.find? (fun d =>
    decide (d.time ≤ currentTime) &&
      (match entries.find? (fun next =>
          decide (d.time < next.time) && decide (d.time < next.time)) with
       | some _ =>
         match entries.find? (fun next => decide (d.time < next.time)) with
         | some next => decide (currentTime < next.time)
         | none => true
       | none => true))

/-- Range-match lookup demanded by the claim and by section 4.4 of the
spec: the entry whose time is the greatest value at most `t`, or none. -/
def entryActiveAtSpec
    (entries : List TimestampEntry) (t : ℚ) : Option TimestampEntry :=
  (entries.filter (fun d => decide (d.time ≤ t))).foldl
    (fun acc d =>
      match acc with
      | none => some d
      | some b => if b.time < d.time then some d else some b) none

-- =========================================================================
-- LaserUtils (src/script.js lines 93-202)
-- =========================================================================

/-- Payload a pointer handler passes to `LaserUtils.addLaserStroke`: the
recorded points, style and the tag of the surface owning the stroke. -/
structure StrokeData where
  points : List (ℚ × ℚ)
  color : String
  width : ℚ
  shadowBlur : ℚ
  canvas : String
deriving DecidableEq

/-- Tracked record built by `addLaserStroke`: the stroke spread together
with `opacity: 1.0`, `createdAt: Date.now()` and
`fadeStartTime: Date.now() + 500`. -/
structure LaserStroke where
  points : List (ℚ × ℚ)
  color : String
  width : ℚ
  shadowBlur : ℚ
  canvas : String
  opacity : ℚ
  createdAt : ℕ
  fadeStartTime : ℕ
deriving DecidableEq

/-- Record construction of `addLaserStroke` at clock value `now` (ms). -/
def LaserUtils.mkLaserStroke (sd : StrokeData) (now : ℕ) : LaserStroke :=
  ⟨sd.points, sd.color, sd.width, sd.shadowBlur, sd.canvas, 1, now, now + 500⟩

/-- Per-stroke body of the `animate` loop: past `fadeStartTime` the opacity
becomes `max 0 (1 - (now - fadeStartTime) / 2000)`, otherwise it is left
unchanged. -/
def LaserUtils.updateStrokeOpacity (now : ℕ) (s : LaserStroke) : LaserStroke :=
  if s.fadeStartTime < now then
    { s with opacity := max 0 (1 - ((now : ℚ) - (s.fadeStartTime : ℚ)) / 2000) }
  else s

/-- One pass of the `animate` loop over the tracked collection: update every
opacity, note whether any stroke still has positive opacity, and drop the
fully faded ones.  Returns the surviving strokes and the
`hasActiveStrokes` flag that decides rescheduling. -/
def LaserUtils.animateTick (now : ℕ) (strokes : List LaserStroke) :
    List LaserStroke × Bool :=
  let updated := strokes.map (LaserUtils.updateStrokeOpacity now)
  let hasActiveStrokes := updated.any (fun s => decide (0 < s.opacity))
  (updated.filter (fun s => decide (0 < s.opacity)), hasActiveStrokes)

/-- Slice of `AppState` driving the fade loop.  `animationRunning` is the
truthiness of `laserAnimationId` (requestAnimationFrame handles are
nonzero), and `scheduledCallbacks` counts the animation-frame callbacks
currently pending for the loop. -/
structure LaserSystem where
  laserStrokes : List LaserStroke
  animationRunning : Bool
  scheduledCallbacks : ℕ
deriving DecidableEq

/-- Embedding of `LaserUtils.addLaserStroke`: push the tracked record, then
start the fade animation (schedule one frame and set the handle) only when
no loop is already running. -/
def LaserUtils.addLaserStroke (sys : LaserSystem) (sd : StrokeData) (now : ℕ) :
    LaserSystem :=
  let sys1 := { sys with
    laserStrokes := sys.laserStrokes ++ [LaserUtils.mkLaserStroke sd now] }
  if sys1.animationRunning then sys1
  else { sys1 with animationRunning := true,
                   scheduledCallbacks := sys1.scheduledCallbacks + 1 }

/-- Firing of one pending animation-frame callback at clock `now`: the
browser consumes the callback, `animate` runs one tick, and the loop
either reschedules itself (`hasActiveStrokes`) or clears its handle. -/
def LaserUtils.fireTick (sys : LaserSystem) (now : ℕ) : LaserSystem :=
  let res := LaserUtils.animateTick now sys.laserStrokes
  if res.2 then
    { laserStrokes := res.1, animationRunning := true,
      scheduledCallbacks := sys.scheduledCallbacks - 1 + 1 }
  else
    { laserStrokes := res.1, animationRunning := false,
      scheduledCallbacks := sys.scheduledCallbacks - 1 }

/-- States of the fade-loop slice reachable from the initial `AppState`
(no strokes, no animation handle, no pending callback) by adding laser
strokes and firing pending callbacks. -/
inductive LaserReachable : LaserSystem → Prop
  | init : LaserReachable ⟨[], false, 0⟩
  | add (sys : LaserSystem) (sd : StrokeData) (now : ℕ) :
      LaserReachable sys → LaserReachable (LaserUtils.addLaserStroke sys sd now)
  | tick (sys : LaserSystem) (now : ℕ) :
      LaserReachable sys → 0 < sys.scheduledCallbacks →
      LaserReachable (LaserUtils.fireTick sys now)

-- =========================================================================
-- Canvas model and CanvasUtils.resize (src/script.js lines 271-295)
-- =========================================================================

/-- Raster surface: an HTML canvas with its bitmap.  Pixels are RGBA words
read at integer coordinates; coordinates outside `width × height` carry
the transparent value `0`. -/
structure Canvas where
  width : ℕ
  height : ℕ
  pix : ℕ → ℕ → ℕ

/-- Snapshot semantics of `ctx.getImageData(0, 0, w, h)`: the requested
region, with transparent black outside the canvas bounds. -/
def getImageData (c : Canvas) (w h : ℕ) : Canvas :=
  ⟨w, h, fun x y =>
    if x < w ∧ y < h ∧ x < c.width ∧ y < c.height then c.pix x y else 0⟩

/-- Assignment to `canvas.width` / `canvas.height`: the backing bitmap is
reset to transparent black at the new dimensions. -/
def setCanvasSize (_c : Canvas) (w h : ℕ) : Canvas :=
  ⟨w, h, fun _ _ => 0⟩

/-- Semantics of `ctx.putImageData(img, 0, 0)`: every pixel of `img` that
falls inside the canvas is written verbatim (no blending); the rest of the
canvas is untouched. -/
def putImageData (c : Canvas) (img : Canvas) : Canvas :=
  { c with pix := fun x y =>
      if x < img.width ∧ y < img.height ∧ x < c.width ∧ y < c.height then
        img.pix x y
      else c.pix x y }

/-- Embedding of `CanvasUtils.resize`: read back the whole main canvas,
resize the main canvas to the container rectangle and repaint the saved
region, and resize the overlay canvas (which clears it). -/
def CanvasUtils.resize (canvas overlayCanvas : Canvas) (newW newH : ℕ) :
    Canvas × Canvas :=
  let imageData := getImageData canvas canvas.width canvas.height
  (putImageData (setCanvasSize canvas newW newH) imageData,
   setCanvasSize overlayCanvas newW newH)

-- =========================================================================
-- InfiniteCanvas expansion (src/script.js lines 1793-1801, 2192-2215,
-- 2490-2549)
-- =========================================================================

/-- Inputs read by the infinite-canvas scroll and resize handlers: scroll
offsets and client size of the container, current canvas size, window
size and the A4 percentage settings, and the horizontal-growth toggle. -/
structure InfiniteEnv where
  scrollLeft : ℚ
  scrollTop : ℚ
  containerWidth : ℚ
  containerHeight : ℚ
  canvasWidth : ℚ
  canvasHeight : ℚ
  screenWidth : ℚ
  screenHeight : ℚ
  a4WidthPercent : ℚ
  a4HeightPercent : ℚ
  infiniteHorizontal : Bool
deriving DecidableEq

/-- Embedding of `InfiniteCanvas.calculateA4Dimensions`. -/
def InfiniteCanvas.calculateA4Dimensions
    (screenWidth screenHeight a4WidthPercent a4HeightPercent : ℚ) : ℚ × ℚ :=
  ((⌊screenWidth * a4WidthPercent / 100⌋ : ℤ),
   (⌊screenHeight * a4HeightPercent / 100⌋ : ℤ))

/-- Page unit of an environment, as recomputed by every handler. -/
def InfiniteCanvas.pageUnit (env : InfiniteEnv) : ℚ × ℚ :=
  InfiniteCanvas.calculateA4Dimensions env.screenWidth env.screenHeight
    env.a4WidthPercent env.a4HeightPercent

/-- Embedding of `InfiniteCanvas.checkAndExpand`: within 100 px of the
bottom edge the height grows by one page unit; within 100 px of the right
edge, and only when the horizontal toggle is on, the width grows by one
page unit.  Returns the new width, new height and the `needsExpansion`
flag that decides whether `expandCanvas` is called. -/
def InfiniteCanvas.checkAndExpand (env : InfiniteEnv) : ℚ × ℚ × Bool :=
  let expandThreshold : ℚ := 100
  let dims := InfiniteCanvas.pageUnit env
  let hExp := env.infiniteHorizontal &&
    decide (env.canvasWidth - expandThreshold < env.scrollLeft + env.containerWidth)
  let vExp :=
    decide (env.canvasHeight - expandThreshold < env.scrollTop + env.containerHeight)
  let newWidth := if hExp then env.canvasWidth + dims.1 else env.canvasWidth
  let newHeight := if vExp then env.canvasHeight + dims.2 else env.canvasHeight
  (newWidth, newHeight, hExp || vExp)

/-- Embedding of `InfiniteCanvas.handleResize` restricted to the canvas
dimensions: when the freshly computed A4 unit differs from the current
canvas size by more than 10 px in either direction, the canvas is resized
to exactly that one-page unit; otherwise it is left alone. -/
def InfiniteCanvas.handleResize (env : InfiniteEnv) : ℚ × ℚ :=
  let dims := InfiniteCanvas.pageUnit env
  if 10 < |dims.1 - env.canvasWidth| ∨ 10 < |dims.2 - env.canvasHeight| then
    (dims.1, dims.2)
  else
    (env.canvasWidth, env.canvasHeight)

/-- One scroll-driven expansion check applied to current dimensions: run
`checkAndExpand` with the canvas at `dims` and keep the resulting size. -/
def InfiniteCanvas.applyCheck (dims : ℚ × ℚ) (ev : InfiniteEnv) : ℚ × ℚ :=
  let r := InfiniteCanvas.checkAndExpand
    { ev with canvasWidth := dims.1, canvasHeight := dims.2 }
  (r.1, r.2.1)

/-- A whole sequence of expansion checks. -/
def InfiniteCanvas.applyChecks (dims : ℚ × ℚ) (evs : List InfiniteEnv) : ℚ × ℚ :=
  evs.foldl InfiniteCanvas.applyCheck dims

-- =========================================================================
-- StorageManager (src/script.js lines 2668-2818)
-- =========================================================================

/-- Slice of `AppState` touched by persistence.  `brushSize` and
`fontSize` mirror the JS values whose truthiness the restore checks
(`0` is the falsy value); the two `CanvasData` fields are the opaque
`toDataURL` images of the surfaces. -/
structure AppStateModel where
  timestampedDrawings : List TimestampEntry
  currentColor : String
  brushSize : ℕ
  fontSize : ℕ
  fontFamily : String
  infiniteHorizontal : Bool
  a4WidthPercent : ℚ
  a4HeightPercent : ℚ
  mainCanvasData : String
  infiniteCanvasData : String
  infiniteCanvasWidth : ℚ
  infiniteCanvasHeight : ℚ
deriving DecidableEq

/-- Object serialized by `StorageManager.saveData` (the persisted blob
layout of the spec, section 6). -/
structure SavedData where
  videoUrl : String
  timestampedDrawings : List TimestampEntry
  mainCanvasData : String
  infiniteCanvasData : String
  currentColor : String
  brushSize : ℕ
  fontSize : ℕ
  fontFamily : String
  infiniteCanvasWidth : ℚ
  infiniteCanvasHeight : ℚ
  infiniteHorizontal : Bool
  a4WidthPercent : ℚ
  a4HeightPercent : ℚ
  lastSaved : String
deriving DecidableEq

/-- Embedding of `StorageManager.saveData`: assemble the data object from
the current state (the URL input and the save stamp are external). -/
def StorageManager.saveData (s : AppStateModel) (videoUrl lastSaved : String) :
    SavedData :=
  ⟨videoUrl, s.timestampedDrawings, s.mainCanvasData, s.infiniteCanvasData,
   s.currentColor, s.brushSize, s.fontSize, s.fontFamily,
   s.infiniteCanvasWidth, s.infiniteCanvasHeight, s.infiniteHorizontal,
   s.a4WidthPercent, s.a4HeightPercent, lastSaved⟩

/-- Content of the persistence key as seen by `JSON.parse`: either a
string that parses back to a data object (every `JSON.stringify` output
does), or a corrupt string that `JSON.parse` rejects. -/
inductive StoredBlob where
  | valid : SavedData → StoredBlob
  | malformed : StoredBlob
deriving DecidableEq

/-- Embedding of `StorageManager.loadData`: absent key gives null, a
corrupt blob makes `JSON.parse` throw and the catch return null, and a
well-formed blob parses back to the stored object. -/
def StorageManager.loadData : Option StoredBlob → Option SavedData
  | none => none
  | some (StoredBlob.valid d) => some d
  | some StoredBlob.malformed => none

/-- Embedding of `StorageManager.restoreData` on the state slice: an
early return on null data, then field-by-field restore guarded by JS
truthiness (`0` and the empty string are falsy, arrays are truthy, the
horizontal flag is restored whenever it is a boolean).  The deferred
`restoreCanvasDrawings` repaint is outside this slice. -/
def StorageManager.restoreData (data : Option SavedData) (s : AppStateModel) :
    AppStateModel :=
  match data with
  | none => s
  | some d =>
    let s1 := { s with timestampedDrawings := d.timestampedDrawings }
    let s2 := if d.currentColor = "" then s1
              else { s1 with currentColor := d.currentColor }
    let s3 := if d.brushSize = 0 then s2 else { s2 with brushSize := d.brushSize }
    let s4 := if d.fontSize = 0 then s3 else { s3 with fontSize := d.fontSize }
    let s5 := if d.fontFamily = "" then s4
              else { s4 with fontFamily := d.fontFamily }
    let s6 := { s5 with infiniteHorizontal := d.infiniteHorizontal }
    let s7 := if d.a4WidthPercent = 0 then s6
              else { s6 with a4WidthPercent := d.a4WidthPercent }
    let s8 := if d.a4HeightPercent = 0 then s7
              else { s7 with a4HeightPercent := d.a4HeightPercent }
    s8

/-- Serialize a state and immediately load and restore it over the state
`s1` (the round trip of the claim). -/
def StorageManager.roundTrip (s0 s1 : AppStateModel) (url ls : String) :
    AppStateModel :=
  StorageManager.restoreData
    (StorageManager.loadData (some (StoredBlob.valid
      (StorageManager.saveData s0 url ls)))) s1

-- =========================================================================
-- Helper lemmas
-- =========================================================================

/-- Representation of a nonnegative integer coincides with that of the
underlying natural number. -/
theorem toString_intCast_ofNat (n : ℕ) : toString ((n : ℤ)) = toString n := rfl

/-- Decimal representations of naturals below 60 use at most two digits. -/
theorem toString_length_le_two_of_lt_60 :
    ∀ n : ℕ, n < 60 → (toString n).length ≤ 2 := by decide

/-- Decimal representations of integers in `[0, 60)` use at most two
digits. -/
theorem int_toString_length_le_two (m : ℤ) (h0 : 0 ≤ m) (h60 : m < 60) :
    (toString m).length ≤ 2 := by
  lift m to ℕ using h0
  rw [toString_intCast_ofNat]
  exact toString_length_le_two_of_lt_60 m (by exact_mod_cast h60)

/-- Padding a string of at most two characters with `padStart(2, c)` yields
exactly two characters. -/
theorem jsPadStart_two_length (c : Char) (s : String) (h : s.length ≤ 2) :
    (jsPadStart 2 c s).length = 2 := by
  unfold jsPadStart
  by_cases h2 : 2 ≤ s.length
  · rw [if_pos h2]; omega
  · rw [if_neg h2, String.length_append]
    have : (String.mk (List.replicate (2 - s.length) c)).length =
        2 - s.length := by
      rw [String.mk_length, List.length_replicate]
    omega

/-- JS remainder agrees with the floor-based remainder on nonnegative
operands. -/
theorem jsMod_eq_of_nonneg (a b : ℚ) (h : 0 ≤ a / b) :
    jsMod a b = a - b * (⌊a / b⌋ : ℚ) := by
  unfold jsMod jsTrunc
  rw [if_pos h]

/-- Floor remainder by a positive divisor lies in `[0, divisor)`. -/
theorem floor_rem_bounds (s b : ℚ) (hb : 0 < b) :
    0 ≤ s - b * (⌊s / b⌋ : ℚ) ∧ s - b * (⌊s / b⌋ : ℚ) < b := by
  constructor
  · have h1 : (⌊s / b⌋ : ℚ) ≤ s / b := Int.floor_le _
    have h2 : b * (⌊s / b⌋ : ℚ) ≤ b * (s / b) := by
      exact mul_le_mul_of_nonneg_left h1 (le_of_lt hb)
    have h3 : b * (s / b) = s := by field_simp
    linarith
  · have h1 : s / b < (⌊s / b⌋ : ℚ) + 1 := Int.lt_floor_add_one _
    have h2 : b * (s / b) < b * ((⌊s / b⌋ : ℚ) + 1) := by
      exact mul_lt_mul_of_pos_left h1 hb
    have h3 : b * (s / b) = s := by field_simp
    nlinarith

/-- Bounds for the minute field of the claim. -/
theorem clockMinuteField_bounds (s : ℚ) (_hs : 0 ≤ s) :
    0 ≤ clockMinuteField s ∧ clockMinuteField s < 60 := by
  have hb := floor_rem_bounds s 3600 (by norm_num)
  unfold clockMinuteField
  constructor
  · exact Int.floor_nonneg.2 (div_nonneg hb.1 (by norm_num))
  · rw [Int.floor_lt]
    rw [div_lt_iff₀ (by norm_num : (0:ℚ) < 60)]
    push_cast
    linarith [hb.2]

/-- Bounds for the second field of the claim. -/
theorem clockSecondField_bounds (s : ℚ) (_hs : 0 ≤ s) :
    0 ≤ clockSecondField s ∧ clockSecondField s < 60 := by
  have hb := floor_rem_bounds s 60 (by norm_num)
  unfold clockSecondField
  constructor
  · exact Int.floor_nonneg.2 hb.1
  · rw [Int.floor_lt]
    push_cast
    linarith [hb.2]

/-- Evaluation of `TimeUtils.format` on a nonnegative duration in terms of
the hour, minute and second fields demanded by the claim. -/
theorem format_eq_fields (s : ℚ) (hs : 0 ≤ s) :
    TimeUtils.format s =
      if clockHourField s = 0 then
        jsPadStart 2 '0' (toString (clockMinuteField s)) ++ ":" ++
          jsPadStart 2 '0' (toString (clockSecondField s))
      else
        jsPadStart 2 '0' (toString (clockHourField s)) ++ ":" ++
          jsPadStart 2 '0' (toString (clockMinuteField s)) ++ ":" ++
          jsPadStart 2 '0' (toString (clockSecondField s)) := by
  have h1 : (0:ℚ) ≤ s / 3600 := by positivity
  have h2 : (0:ℚ) ≤ s / 60 := by positivity
  unfold TimeUtils.format clockHourField clockMinuteField clockSecondField
  rw [jsMod_eq_of_nonneg s 3600 h1, jsMod_eq_of_nonneg s 60 h2]

-- =========================================================================
-- Claim C10
-- =========================================================================

/-- C10: for every nonnegative finite duration `s`, `TimeUtils.format` is
total and returns a zero-padded clock string: with `floor (s / 3600) = 0`
it returns `MM:SS` with both fields padded to two digits; with
`floor (s / 3600) ≥ 1` it returns `HH:MM:SS`; the hour, minute and second
fields are `floor (s / 3600)`, `floor ((s mod 3600) / 60)` and
`floor (s mod 60)`, and the minute and second fields occupy exactly two
characters. -/
theorem c10_format_clock_string (s : ℚ) (hs : 0 ≤ s) :
    (0 ≤ clockMinuteField s ∧ clockMinuteField s < 60 ∧
      0 ≤ clockSecondField s ∧ clockSecondField s < 60) ∧
    (jsPadStart 2 '0' (toString (clockMinuteField s))).length = 2 ∧
    (jsPadStart 2 '0' (toString (clockSecondField s))).length = 2 ∧
    (clockHourField s = 0 →
      TimeUtils.format s =
        jsPadStart 2 '0' (toString (clockMinuteField s)) ++ ":" ++
          jsPadStart 2 '0' (toString (clockSecondField s))) ∧
    (1 ≤ clockHourField s →
      TimeUtils.format s =
        jsPadStart 2 '0' (toString (clockHourField s)) ++ ":" ++
          jsPadStart 2 '0' (toString (clockMinuteField s)) ++ ":" ++
          jsPadStart 2 '0' (toString (clockSecondField s))) := by
  have hm := clockMinuteField_bounds s hs
  have hsec := clockSecondField_bounds s hs
  have hfmt := format_eq_fields s hs
  refine ⟨⟨hm.1, hm.2, hsec.1, hsec.2⟩, ?_, ?_, ?_, ?_⟩
  · exact jsPadStart_two_length _ _ (int_toString_length_le_two _ hm.1 hm.2)
  · exact jsPadStart_two_length _ _ (int_toString_length_le_two _ hsec.1 hsec.2)
  · intro h0
    rw [hfmt, if_pos h0]
  · intro h1
    rw [hfmt, if_neg (by omega)]

/-- Witness for C10 at 3725 seconds (one hour, two minutes, five
seconds). -/
theorem c10_format_clock_string_witness :
    (0 ≤ (3725 : ℚ)) ∧
    ((0 ≤ clockMinuteField 3725 ∧ clockMinuteField 3725 < 60 ∧
       0 ≤ clockSecondField 3725 ∧ clockSecondField 3725 < 60) ∧
     (jsPadStart 2 '0' (toString (clockMinuteField 3725))).length = 2 ∧
     (jsPadStart 2 '0' (toString (clockSecondField 3725))).length = 2 ∧
     (clockHourField 3725 = 0 →
       TimeUtils.format 3725 =
         jsPadStart 2 '0' (toString (clockMinuteField 3725)) ++ ":" ++
           jsPadStart 2 '0' (toString (clockSecondField 3725))) ∧
     (1 ≤ clockHourField 3725 →
       TimeUtils.format 3725 =
         jsPadStart 2 '0' (toString (clockHourField 3725)) ++ ":" ++
           jsPadStart 2 '0' (toString (clockMinuteField 3725)) ++ ":" ++
           jsPadStart 2 '0' (toString (clockSecondField 3725)))) ∧
    TimeUtils.format (3725 : ℚ) = "01:02:05" ∧
    TimeUtils.format (125 : ℚ) = "02:05" := by
  refine ⟨by norm_num, c10_format_clock_string 3725 (by norm_num), ?_, ?_⟩
  · have hh : clockHourField (3725 : ℚ) = 1 := by unfold clockHourField; norm_num
    have hm : clockMinuteField (3725 : ℚ) = 2 := by
      unfold clockMinuteField; norm_num
    have hs2 : clockSecondField (3725 : ℚ) = 5 := by
      unfold clockSecondField; norm_num
    rw [format_eq_fields 3725 (by norm_num), hh, hm, hs2]
    decide
  · have hh : clockHourField (125 : ℚ) = 0 := by unfold clockHourField; norm_num
    have hm : clockMinuteField (125 : ℚ) = 2 := by
      unfold clockMinuteField; norm_num
    have hs2 : clockSecondField (125 : ℚ) = 5 := by
      unfold clockSecondField; norm_num
    rw [format_eq_fields 125 (by norm_num), hh, hm, hs2]
    decide

-- =========================================================================
-- Claim C1
-- =========================================================================

/-- Store entry saved first, at video time 5. -/
def demoEntryA : TimestampEntry := ⟨1, 5, "00:05", "snapA", "d1", "00:05"⟩

/-- Store entry saved second, at video time 20. -/
def demoEntryB : TimestampEntry := ⟨2, 20, "00:20", "snapB", "d2", "00:20"⟩

/-- Store entry saved third, at video time 10 (the user sought backward
before saving, so the array is not sorted by time). -/
def demoEntryC : TimestampEntry := ⟨3, 10, "00:10", "snapC", "d3", "00:10"⟩

/-- The store in insertion order after those three saves. -/
def demoEntries : List TimestampEntry := [demoEntryA, demoEntryB, demoEntryC]

/-- C1 evaluated at the failing input: at video time 12 the source lookup
(`checkAndDisplayDrawing`) returns the entry at time 5, although the entry
at time 10 has the greatest time at most 12, because the candidate at
time 5 is gated by the first later-time entry in array order (time 20)
rather than by its successor in time order.  The claimed range-match
semantics (`entryActiveAtSpec`) disagrees with the code here. -/
theorem c1_lookup_failing_input :
    TimestampManager.activeDrawing demoEntries 12 = some demoEntryA ∧
    demoEntryA.time = 5 ∧
    entryActiveAtSpec demoEntries 12 = some demoEntryC ∧
    demoEntryC.time = 10 ∧ demoEntryC.time ≤ 12 ∧
    demoEntryA.time < demoEntryC.time ∧
    TimestampManager.activeDrawing demoEntries 12 ≠
      entryActiveAtSpec demoEntries 12 := by
  refine ⟨?_, rfl, ?_, rfl, by norm_num [demoEntryC], by norm_num [demoEntryA, demoEntryC], ?_⟩
  · rfl
  · rfl
  · decide

-- =========================================================================
-- Claim C2
-- =========================================================================

/-- Entry constructed by a non-coalescing save, as pushed by the source. -/
def freshEntry (t : ℚ) (dd : String) (i : ℕ) (cs : String) : TimestampEntry :=
  ⟨i, t, TimeUtils.format t, dd, cs, TimeUtils.format t⟩

/-- Updating save: when the first entry within one second of `t` is `e`,
`save` replaces the snapshot and creation stamp of `e` in place. -/
theorem save_update_first (pre post : List TimestampEntry) (e : TimestampEntry)
    (t : ℚ) (dd : String) (i : ℕ) (cs : String)
    (hpre : ∀ x ∈ pre, ¬ |x.time - t| < 1) (he : |e.time - t| < 1) :
    TimestampManager.save (pre ++ e :: post) t dd i cs =
      pre ++ { e with drawingData := dd, created := cs } :: post := by
  induction pre with
  | nil =>
    simp only [List.nil_append, TimestampManager.save, if_pos he]
  | cons a as ih =>
    have ha : ¬ |a.time - t| < 1 := hpre a (by simp)
    simp only [List.cons_append, TimestampManager.save, if_neg ha, List.append_eq]
    rw [ih (fun x hx => hpre x (by simp [hx]))]

/-- Inserting save: when no entry lies within one second of `t`, `save`
appends exactly one fresh entry at the end. -/
theorem save_append_fresh (entries : List TimestampEntry)
    (t : ℚ) (dd : String) (i : ℕ) (cs : String)
    (h : ∀ x ∈ entries, ¬ |x.time - t| < 1) :
    TimestampManager.save entries t dd i cs =
      entries ++ [freshEntry t dd i cs] := by
  induction entries with
  | nil => rfl
  | cons a as ih =>
    have ha : ¬ |a.time - t| < 1 := h a (by simp)
    simp only [List.cons_append, TimestampManager.save, if_neg ha]
    rw [ih (fun x hx => h x (by simp [hx]))]

/-- C2: a save at time `t` with some existing entry within one second
updates the first such entry in place (new snapshot, refreshed creation
stamp) and keeps the entry count; a save with no entry within one second
appends exactly one fresh entry; hence two saves more than one second
apart, starting from an empty store, yield two distinct entries. -/
theorem c2_save_coalescing (entries pre post : List TimestampEntry)
    (e : TimestampEntry) (t u : ℚ) (dd du : String) (i j : ℕ)
    (cs cu : String) :
    (entries = pre ++ e :: post →
      (∀ x ∈ pre, ¬ |x.time - t| < 1) → |e.time - t| < 1 →
      TimestampManager.save entries t dd i cs =
        pre ++ { e with drawingData := dd, created := cs } :: post ∧
      (TimestampManager.save entries t dd i cs).length = entries.length) ∧
    ((∀ x ∈ entries, ¬ |x.time - t| < 1) →
      TimestampManager.save entries t dd i cs =
        entries ++ [freshEntry t dd i cs] ∧
      (TimestampManager.save entries t dd i cs).length = entries.length + 1) ∧
    (¬ |t - u| < 1 →
      TimestampManager.save (TimestampManager.save [] t dd i cs) u du j cu =
        [freshEntry t dd i cs, freshEntry u du j cu]) := by
  refine ⟨?_, ?_, ?_⟩
  · intro hsplit hpre he
    subst hsplit
    have hupd := save_update_first pre post e t dd i cs hpre he
    exact ⟨hupd, by rw [hupd]; simp⟩
  · intro h
    have happ := save_append_fresh entries t dd i cs h
    exact ⟨happ, by rw [happ]; simp⟩
  · intro hfar
    have h1 : TimestampManager.save [] t dd i cs = [freshEntry t dd i cs] := rfl
    rw [h1]
    simp only [TimestampManager.save, freshEntry]
    rw [if_neg hfar]

/-- Existing entry at time 5 used by the C2 witness. -/
def demoSaveEntry : TimestampEntry := ⟨4, 5, "00:05", "snapOld", "d0", "00:05"⟩

/-- Witness for C2: a second save at 5.5 s (within one second of the
entry at 5 s) updates in place; a save at 7 s appends a fresh entry; two
saves at 5 s and 7 s from an empty store yield two entries. -/
theorem c2_save_coalescing_witness :
    TimestampManager.save [demoSaveEntry] (11/2) "snapNew" 9 "d9" =
      [{ demoSaveEntry with drawingData := "snapNew", created := "d9" }] ∧
    TimestampManager.save [demoSaveEntry] 7 "snapNew" 9 "d9" =
      [demoSaveEntry, freshEntry 7 "snapNew" 9 "d9"] ∧
    TimestampManager.save (TimestampManager.save [] 5 "s1" 1 "e1") 7 "s2" 2 "e2" =
      [freshEntry 5 "s1" 1 "e1", freshEntry 7 "s2" 2 "e2"] := by
  have hnear : |demoSaveEntry.time - (11/2 : ℚ)| < 1 := by
    show |(5 : ℚ) - 11/2| < 1
    rw [abs_sub_lt_iff]; norm_num
  have hfar : ∀ x ∈ [demoSaveEntry], ¬ |x.time - (7 : ℚ)| < 1 := by
    intro x hx
    rw [List.mem_singleton] at hx
    subst hx
    show ¬ |(5 : ℚ) - 7| < 1
    rw [abs_sub_lt_iff]; norm_num
  have hfar2 : ¬ |(5 : ℚ) - 7| < 1 := by rw [abs_sub_lt_iff]; norm_num
  refine ⟨?_, ?_, ?_⟩
  · exact ((c2_save_coalescing [demoSaveEntry] [] [] demoSaveEntry (11/2) 0
      "snapNew" "x" 9 0 "d9" "y").1 rfl (by simp) hnear).1
  · exact ((c2_save_coalescing [demoSaveEntry] [] [] demoSaveEntry 7 0
      "snapNew" "x" 9 0 "d9" "y").2.1 hfar).1
  · exact (c2_save_coalescing [] [] [] demoSaveEntry 5 7
      "s1" "s2" 1 2 "e1" "e2").2.2 hfar2

-- =========================================================================
-- Claim C3
-- =========================================================================

/-- Expired stroke: from 2500 ms after creation the updated opacity is
exactly 0. -/
theorem updateStrokeOpacity_expired (sd : StrokeData) (T now : ℕ)
    (h : T + 2500 ≤ now) :
    (LaserUtils.updateStrokeOpacity now (LaserUtils.mkLaserStroke sd T)).opacity
      = 0 := by
  have hfs : (LaserUtils.mkLaserStroke sd T).fadeStartTime = T + 500 := rfl
  unfold LaserUtils.updateStrokeOpacity
  rw [hfs, if_pos (by omega)]
  show max 0 (1 - ((now : ℚ) - ((T + 500 : ℕ) : ℚ)) / 2000) = 0
  have h1 : (2000 : ℚ) ≤ ((now : ℚ) - ((T + 500 : ℕ) : ℚ)) := by
    push_cast
    have : ((T : ℚ) + 2500) ≤ (now : ℚ) := by exact_mod_cast h
    linarith
  have h2 : 1 - ((now : ℚ) - ((T + 500 : ℕ) : ℚ)) / 2000 ≤ 0 := by
    rw [sub_nonpos, le_div_iff₀ (by norm_num : (0:ℚ) < 2000)]
    linarith
  exact max_eq_left h2

/-- C3: a transient stroke added at clock `T` has fade start `T + 500`;
its opacity is held at 1.0 up to the fade start, equals
`max 0 (1 - (now - fadeStart) / 2000)` afterwards, strictly decreases
across the 2000 ms fade window, and once the opacity reaches 0 the tick
drops the stroke from the tracked collection. -/
theorem c3_fade_profile (sd : StrokeData) (T now n1 n2 : ℕ)
    (strokes : List LaserStroke) :
    (LaserUtils.mkLaserStroke sd T).fadeStartTime = T + 500 ∧
    (LaserUtils.mkLaserStroke sd T).opacity = 1 ∧
    (now ≤ T + 500 →
      (LaserUtils.updateStrokeOpacity now (LaserUtils.mkLaserStroke sd T)).opacity
        = 1) ∧
    (T + 500 < now →
      (LaserUtils.updateStrokeOpacity now (LaserUtils.mkLaserStroke sd T)).opacity
        = max 0 (1 - ((now : ℚ) - ((T + 500 : ℕ) : ℚ)) / 2000)) ∧
    (T + 500 ≤ n1 → n1 < n2 → n2 ≤ T + 2500 →
      (LaserUtils.updateStrokeOpacity n2 (LaserUtils.mkLaserStroke sd T)).opacity
        < (LaserUtils.updateStrokeOpacity n1 (LaserUtils.mkLaserStroke sd T)).opacity) ∧
    (T + 2500 ≤ now →
      (LaserUtils.updateStrokeOpacity now (LaserUtils.mkLaserStroke sd T)).opacity
        = 0 ∧
      LaserUtils.updateStrokeOpacity now (LaserUtils.mkLaserStroke sd T) ∉
        (LaserUtils.animateTick now strokes).1) := by
  have hfs : (LaserUtils.mkLaserStroke sd T).fadeStartTime = T + 500 := rfl
  have hop : (LaserUtils.mkLaserStroke sd T).opacity = 1 := rfl
  have hhold : ∀ m : ℕ, m ≤ T + 500 →
      (LaserUtils.updateStrokeOpacity m (LaserUtils.mkLaserStroke sd T)).opacity
        = 1 := by
    intro m hm
    unfold LaserUtils.updateStrokeOpacity
    rw [hfs, if_neg (by omega)]
    exact hop
  have hfade : ∀ m : ℕ, T + 500 < m →
      (LaserUtils.updateStrokeOpacity m (LaserUtils.mkLaserStroke sd T)).opacity
        = max 0 (1 - ((m : ℚ) - ((T + 500 : ℕ) : ℚ)) / 2000) := by
    intro m hm
    unfold LaserUtils.updateStrokeOpacity
    rw [hfs, if_pos (by omega)]
  have hval : ∀ m : ℕ, T + 500 < m → m ≤ T + 2500 →
      (LaserUtils.updateStrokeOpacity m (LaserUtils.mkLaserStroke sd T)).opacity
        = 1 - ((m : ℚ) - ((T + 500 : ℕ) : ℚ)) / 2000 := by
    intro m hlo hhi
    rw [hfade m hlo]
    have h1 : ((m : ℚ) - ((T + 500 : ℕ) : ℚ)) ≤ 2000 := by
      push_cast
      have : (m : ℚ) ≤ ((T : ℚ) + 2500) := by exact_mod_cast hhi
      linarith
    have h2 : 0 ≤ 1 - ((m : ℚ) - ((T + 500 : ℕ) : ℚ)) / 2000 := by
      rw [sub_nonneg, div_le_one (by norm_num : (0:ℚ) < 2000)]
      exact h1
    exact max_eq_right h2
  refine ⟨hfs, hop, hhold now, hfade now, ?_, ?_⟩
  · intro h1 h12 h2
    rcases Nat.eq_or_lt_of_le h1 with heq | hlt
    · rw [hhold n1 (by omega), hval n2 (by omega) h2]
      have : (0 : ℚ) < ((n2 : ℚ) - ((T + 500 : ℕ) : ℚ)) / 2000 := by
        apply div_pos _ (by norm_num)
        rw [sub_pos]
        exact_mod_cast by omega
      linarith
    · rw [hval n1 hlt (by omega), hval n2 (by omega) h2]
      have : ((n1 : ℚ) - ((T + 500 : ℕ) : ℚ)) / 2000
          < ((n2 : ℚ) - ((T + 500 : ℕ) : ℚ)) / 2000 := by
        apply div_lt_div_of_pos_right _ (by norm_num)
        have : (n1 : ℚ) < (n2 : ℚ) := by exact_mod_cast h12
        linarith
      linarith
  · intro hend
    have hzero := updateStrokeOpacity_expired sd T now hend
    refine ⟨hzero, ?_⟩
    intro hmem
    unfold LaserUtils.animateTick at hmem
    simp only [List.mem_filter] at hmem
    have := hmem.2
    rw [hzero] at this
    simp at this

/-- Stroke payload for the laser witnesses. -/
def demoStroke : StrokeData := ⟨[(0, 0), (1, 1)], "#ff0000", 6, 10, "overlay"⟩

/-- Witness for C3 with a stroke added at clock 0: opacity 1 at 300 ms,
the fade formula at 1500 ms, strict decrease between 1000 ms and 1500 ms,
and removal at 2500 ms. -/
theorem c3_fade_profile_witness :
    ((LaserUtils.updateStrokeOpacity 300 (LaserUtils.mkLaserStroke demoStroke 0)).opacity
      = 1) ∧
    ((LaserUtils.updateStrokeOpacity 1500 (LaserUtils.mkLaserStroke demoStroke 0)).opacity
      = max 0 (1 - ((1500 : ℚ) - ((500 : ℕ) : ℚ)) / 2000)) ∧
    ((LaserUtils.updateStrokeOpacity 1500 (LaserUtils.mkLaserStroke demoStroke 0)).opacity
      < (LaserUtils.updateStrokeOpacity 1000 (LaserUtils.mkLaserStroke demoStroke 0)).opacity) ∧
    ((LaserUtils.updateStrokeOpacity 2500 (LaserUtils.mkLaserStroke demoStroke 0)).opacity
      = 0) ∧
    (LaserUtils.updateStrokeOpacity 2500 (LaserUtils.mkLaserStroke demoStroke 0) ∉
      (LaserUtils.animateTick 2500 [LaserUtils.mkLaserStroke demoStroke 0]).1) := by
  have h := c3_fade_profile demoStroke 0 2500 1000 1500
    [LaserUtils.mkLaserStroke demoStroke 0]
  have h300 := c3_fade_profile demoStroke 0 300 1000 1500
    [LaserUtils.mkLaserStroke demoStroke 0]
  have h1500 := c3_fade_profile demoStroke 0 1500 1000 1500
    [LaserUtils.mkLaserStroke demoStroke 0]
  refine ⟨h300.2.2.1 (by omega), h1500.2.2.2.1 (by omega), ?_, ?_, ?_⟩
  · exact h.2.2.2.2.1 (by omega) (by omega) (by omega)
  · exact (h.2.2.2.2.2 (by omega)).1
  · exact (h.2.2.2.2.2 (by omega)).2

-- =========================================================================
-- Claim C4
-- =========================================================================

/-- Reachable fade-loop states keep exactly one pending callback while the
loop runs and none while it is stopped. -/
theorem laserReachable_inv (sys : LaserSystem) (h : LaserReachable sys) :
    sys.scheduledCallbacks = (if sys.animationRunning then 1 else 0) := by
  induction h with
  | init => rfl
  | add sys sd now hr ih =>
    by_cases hb : sys.animationRunning
    · simp [LaserUtils.addLaserStroke, hb, ih]
    · simp [LaserUtils.addLaserStroke, hb, ih]
  | tick sys now hr hsched ih =>
    have hrun : sys.animationRunning := by
      by_contra hfalse
      rw [ih, if_neg hfalse] at hsched
      exact Nat.lt_irrefl 0 hsched
    have hone : sys.scheduledCallbacks = 1 := by rw [ih, if_pos hrun]
    by_cases hb : (LaserUtils.animateTick now sys.laserStrokes).2
    · simp [LaserUtils.fireTick, hb, hone]
    · simp [LaserUtils.fireTick, hb, hone]

/-- C4: along every reachable execution at most one animation-frame
callback is pending; adding a stroke schedules a callback exactly when no
loop is running (and afterwards the loop is always marked running); and a
tick at which no tracked stroke retains positive opacity clears the
handle, schedules nothing further and leaves the tracked collection
empty. -/
theorem c4_fade_loop_lifecycle (sys : LaserSystem) (sd : StrokeData)
    (now : ℕ) :
    (LaserReachable sys → sys.scheduledCallbacks ≤ 1) ∧
    ((LaserUtils.addLaserStroke sys sd now).scheduledCallbacks
        = sys.scheduledCallbacks + 1 ↔ sys.animationRunning = false) ∧
    (LaserUtils.addLaserStroke sys sd now).animationRunning = true ∧
    (LaserReachable sys → 0 < sys.scheduledCallbacks →
      (sys.laserStrokes.map (LaserUtils.updateStrokeOpacity now)).any
          (fun s => decide (0 < s.opacity)) = false →
      (LaserUtils.fireTick sys now).animationRunning = false ∧
      (LaserUtils.fireTick sys now).scheduledCallbacks = 0 ∧
      (LaserUtils.fireTick sys now).laserStrokes = []) := by
  refine ⟨?_, ?_, ?_, ?_⟩
  · intro hr
    rw [laserReachable_inv sys hr]
    by_cases hb : sys.animationRunning <;> simp [hb]
  · constructor
    · intro hsch
      by_contra hrun
      rw [Bool.not_eq_false] at hrun
      simp [LaserUtils.addLaserStroke, hrun] at hsch
    · intro hrun
      simp [LaserUtils.addLaserStroke, hrun]
  · by_cases hb : sys.animationRunning <;>
      simp [LaserUtils.addLaserStroke, hb]
  · intro hr hsched hquiet
    have hflag : (LaserUtils.animateTick now sys.laserStrokes).2 = false := by
      unfold LaserUtils.animateTick
      exact hquiet
    have hempty : (LaserUtils.animateTick now sys.laserStrokes).1 = [] := by
      unfold LaserUtils.animateTick
      rw [List.filter_eq_nil_iff]
      intro a ha
      have := (List.any_eq_false.1 hquiet) a ha
      simpa using this
    have hrun : sys.animationRunning := by
      by_contra hfalse
      rw [laserReachable_inv sys hr, if_neg hfalse] at hsched
      exact Nat.lt_irrefl 0 hsched
    have hone : sys.scheduledCallbacks = 1 := by
      rw [laserReachable_inv sys hr, if_pos hrun]
    refine ⟨?_, ?_, ?_⟩
    · simp [LaserUtils.fireTick, hflag]
    · simp [LaserUtils.fireTick, hflag, hone]
    · simp [LaserUtils.fireTick, hflag, hempty]

/-- Witness for C4: from the initial state, adding one laser stroke at
clock 0 schedules one callback and marks the loop running; firing the
pending callback at clock 5000 (the stroke fully faded) clears the
handle, leaves no pending callback and empties the tracked collection. -/
theorem c4_fade_loop_lifecycle_witness :
    (LaserSystem.mk [] false 0).scheduledCallbacks ≤ 1 ∧
    ((LaserUtils.addLaserStroke ⟨[], false, 0⟩ demoStroke 0).scheduledCallbacks
      = (LaserSystem.mk [] false 0).scheduledCallbacks + 1) ∧
    (LaserUtils.addLaserStroke ⟨[], false, 0⟩ demoStroke 0).animationRunning
      = true ∧
    ((LaserUtils.fireTick
        (LaserUtils.addLaserStroke ⟨[], false, 0⟩ demoStroke 0) 5000).animationRunning
      = false ∧
     (LaserUtils.fireTick
        (LaserUtils.addLaserStroke ⟨[], false, 0⟩ demoStroke 0) 5000).scheduledCallbacks
      = 0 ∧
     (LaserUtils.fireTick
        (LaserUtils.addLaserStroke ⟨[], false, 0⟩ demoStroke 0) 5000).laserStrokes
      = []) := by
  have hreach0 : LaserReachable ⟨[], false, 0⟩ := LaserReachable.init
  have hreach1 : LaserReachable (LaserUtils.addLaserStroke ⟨[], false, 0⟩ demoStroke 0) :=
    LaserReachable.add _ demoStroke 0 hreach0
  have h0 := c4_fade_loop_lifecycle ⟨[], false, 0⟩ demoStroke 0
  have h1 := c4_fade_loop_lifecycle
    (LaserUtils.addLaserStroke ⟨[], false, 0⟩ demoStroke 0) demoStroke 5000
  have hs1 : (LaserUtils.addLaserStroke ⟨[], false, 0⟩ demoStroke 0).laserStrokes
      = [LaserUtils.mkLaserStroke demoStroke 0] := by
    simp [LaserUtils.addLaserStroke]
  have hquiet :
      ((LaserUtils.addLaserStroke ⟨[], false, 0⟩ demoStroke 0).laserStrokes.map
          (LaserUtils.updateStrokeOpacity 5000)).any
        (fun s => decide (0 < s.opacity)) = false := by
    rw [hs1]
    simp [updateStrokeOpacity_expired demoStroke 0 5000 (by omega)]
  refine ⟨h0.1 hreach0, h0.2.1.2 rfl, h0.2.2.1, ?_⟩
  exact h1.2.2.2 hreach1 (by decide) hquiet

-- =========================================================================
-- Claim C5
-- =========================================================================

/-- C5: after `CanvasUtils.resize`, the persistent surface has the new
dimensions and keeps every previously painted pixel that lies within both
the old and the new bounds at the same coordinates; newly exposed pixels
are blank; and the overlay surface is empty everywhere. -/
theorem c5_resize_content_preserving (canvas overlay : Canvas)
    (newW newH x y : ℕ) :
    (CanvasUtils.resize canvas overlay newW newH).1.width = newW ∧
    (CanvasUtils.resize canvas overlay newW newH).1.height = newH ∧
    (CanvasUtils.resize canvas overlay newW newH).2.width = newW ∧
    (CanvasUtils.resize canvas overlay newW newH).2.height = newH ∧
    (x < newW → y < newH → x < canvas.width → y < canvas.height →
      (CanvasUtils.resize canvas overlay newW newH).1.pix x y = canvas.pix x y) ∧
    (canvas.width ≤ x ∨ canvas.height ≤ y →
      (CanvasUtils.resize canvas overlay newW newH).1.pix x y = 0) ∧
    (CanvasUtils.resize canvas overlay newW newH).2.pix x y = 0 := by
  refine ⟨rfl, rfl, rfl, rfl, ?_, ?_, rfl⟩
  · intro hxw hyh hxo hyo
    show (if x < canvas.width ∧ y < canvas.height ∧ x < newW ∧ y < newH then
        (if x < canvas.width ∧ y < canvas.height ∧ x < canvas.width ∧
            y < canvas.height then canvas.pix x y else 0)
      else 0) = canvas.pix x y
    rw [if_pos ⟨hxo, hyo, hxw, hyh⟩, if_pos ⟨hxo, hyo, hxo, hyo⟩]
  · intro hout
    show (if x < canvas.width ∧ y < canvas.height ∧ x < newW ∧ y < newH then
        (if x < canvas.width ∧ y < canvas.height ∧ x < canvas.width ∧
            y < canvas.height then canvas.pix x y else 0)
      else 0) = 0
    rcases hout with hw | hh
    · rw [if_neg (by omega)]
    · rw [if_neg (by omega)]

/-- Main surface for the C5 witness: 4 by 3, pixel value `x + 10 y`. -/
def demoMainCanvas : Canvas := ⟨4, 3, fun x y => x + 10 * y⟩

/-- Overlay surface for the C5 witness, with nonzero content. -/
def demoOverlayCanvas : Canvas := ⟨4, 3, fun _ _ => 7⟩

/-- Witness for C5: resizing the 4 by 3 surfaces to 2 by 5 keeps the pixel
at (1, 2), blanks the exposed row at (1, 4), and empties the overlay. -/
theorem c5_resize_content_preserving_witness :
    (CanvasUtils.resize demoMainCanvas demoOverlayCanvas 2 5).1.width = 2 ∧
    (CanvasUtils.resize demoMainCanvas demoOverlayCanvas 2 5).1.pix 1 2
      = demoMainCanvas.pix 1 2 ∧
    demoMainCanvas.pix 1 2 = 21 ∧
    (CanvasUtils.resize demoMainCanvas demoOverlayCanvas 2 5).1.pix 1 4 = 0 ∧
    (CanvasUtils.resize demoMainCanvas demoOverlayCanvas 2 5).2.pix 1 2 = 0 := by
  have h := c5_resize_content_preserving demoMainCanvas demoOverlayCanvas 2 5 1 2
  have h4 := c5_resize_content_preserving demoMainCanvas demoOverlayCanvas 2 5 1 4
  refine ⟨h.1, ?_, by decide, ?_, h.2.2.2.2.2.2⟩
  · exact h.2.2.2.2.1 (by decide) (by decide) (by decide) (by decide)
  · exact h4.2.2.2.2.2.1 (by decide)

-- =========================================================================
-- Claim C6
-- =========================================================================

/-- C6: one expansion check grows the height by exactly one page unit when
the scroll position is within 100 px of the bottom edge and leaves it
unchanged otherwise; the width grows by exactly one page unit only when
the horizontal toggle is on and the scroll position is within 100 px of
the right edge, and never grows while the toggle is off. -/
theorem c6_expansion_rule (env : InfiniteEnv) :
    (env.canvasHeight - 100 < env.scrollTop + env.containerHeight →
      (InfiniteCanvas.checkAndExpand env).2.1
        = env.canvasHeight + (InfiniteCanvas.pageUnit env).2) ∧
    (¬ env.canvasHeight - 100 < env.scrollTop + env.containerHeight →
      (InfiniteCanvas.checkAndExpand env).2.1 = env.canvasHeight) ∧
    (env.infiniteHorizontal = false →
      (InfiniteCanvas.checkAndExpand env).1 = env.canvasWidth) ∧
    (env.infiniteHorizontal = true →
      env.canvasWidth - 100 < env.scrollLeft + env.containerWidth →
      (InfiniteCanvas.checkAndExpand env).1
        = env.canvasWidth + (InfiniteCanvas.pageUnit env).1) ∧
    (env.infiniteHorizontal = true →
      ¬ env.canvasWidth - 100 < env.scrollLeft + env.containerWidth →
      (InfiniteCanvas.checkAndExpand env).1 = env.canvasWidth) := by
  refine ⟨?_, ?_, ?_, ?_, ?_⟩
  · intro hv
    simp [InfiniteCanvas.checkAndExpand, hv]
  · intro hv
    simp [InfiniteCanvas.checkAndExpand, hv]
  · intro hh
    simp [InfiniteCanvas.checkAndExpand, hh]
  · intro hh hnear
    simp [InfiniteCanvas.checkAndExpand, hh, hnear]
  · intro hh hfar
    simp [InfiniteCanvas.checkAndExpand, hh, hfar]

/-- Scroll situation for the C6 witness: a 1000 by 1000 canvas with the
viewport scrolled to within 100 px of the bottom edge but not of the
right edge, horizontal growth disabled, and a 950 by 900 page unit. -/
def demoEnv : InfiniteEnv :=
  ⟨0, 150, 800, 800, 1000, 1000, 1000, 900, 95, 100, false⟩

/-- Witness for C6: in `demoEnv` the height grows by exactly the one-page
unit (900 px) and the width stays 1000 because the toggle is off. -/
theorem c6_expansion_rule_witness :
    (InfiniteCanvas.checkAndExpand demoEnv).2.1
      = demoEnv.canvasHeight + (InfiniteCanvas.pageUnit demoEnv).2 ∧
    (InfiniteCanvas.pageUnit demoEnv).2 = 900 ∧
    (InfiniteCanvas.checkAndExpand demoEnv).1 = demoEnv.canvasWidth := by
  have h := c6_expansion_rule demoEnv
  refine ⟨h.1 (by norm_num [demoEnv]), ?_, h.2.2.1 rfl⟩
  unfold InfiniteCanvas.pageUnit InfiniteCanvas.calculateA4Dimensions demoEnv
  norm_num

-- =========================================================================
-- Claim C7
-- =========================================================================

/-- Viewport-resize situation refuting automatic monotonicity: the canvas
has grown to two pages (1000 by 2000) and the window fires a resize event
with an unchanged 1000 by 1000 screen, so the recomputed one-page unit is
1000 by 1000. -/
def demoResizeEnv : InfiniteEnv :=
  ⟨0, 0, 800, 800, 1000, 2000, 1000, 1000, 100, 100, false⟩

/-- Counterexample to C7 as stated: the automatic `handleResize` reaction
snaps the two-page-tall surface back to a single 1000 by 1000 page unit,
so the height decreases from 2000 to 1000. -/
theorem c7_handleResize_shrinks :
    InfiniteCanvas.handleResize demoResizeEnv = (1000, 1000) ∧
    (InfiniteCanvas.handleResize demoResizeEnv).2 < demoResizeEnv.canvasHeight := by
  have hunit : InfiniteCanvas.pageUnit demoResizeEnv = (1000, 1000) := by
    unfold InfiniteCanvas.pageUnit InfiniteCanvas.calculateA4Dimensions demoResizeEnv
    norm_num
  have habs : |(InfiniteCanvas.pageUnit demoResizeEnv).2 -
      demoResizeEnv.canvasHeight| = 1000 := by
    rw [hunit]
    show |(1000 : ℚ) - 2000| = 1000
    rw [abs_of_nonpos (by norm_num)]
    norm_num
  have hres : InfiniteCanvas.handleResize demoResizeEnv = (1000, 1000) := by
    unfold InfiniteCanvas.handleResize
    rw [if_pos (Or.inr (by rw [habs]; norm_num))]
    rw [hunit]
  exact ⟨hres, by rw [hres]; norm_num [demoResizeEnv]⟩

/-- One expansion check never shrinks either dimension when the page unit
is nonnegative. -/
theorem applyCheck_monotone (dims : ℚ × ℚ) (ev : InfiniteEnv)
    (h1 : 0 ≤ (InfiniteCanvas.pageUnit ev).1)
    (h2 : 0 ≤ (InfiniteCanvas.pageUnit ev).2) :
    dims.1 ≤ (InfiniteCanvas.applyCheck dims ev).1 ∧
    dims.2 ≤ (InfiniteCanvas.applyCheck dims ev).2 := by
  have hu : InfiniteCanvas.pageUnit
      { ev with canvasWidth := dims.1, canvasHeight := dims.2 }
        = InfiniteCanvas.pageUnit ev := rfl
  unfold InfiniteCanvas.applyCheck InfiniteCanvas.checkAndExpand
  dsimp only
  rw [hu]
  constructor
  · split
    · exact le_add_of_nonneg_right h1
    · exact le_refl _
  · split
    · exact le_add_of_nonneg_right h2
    · exact le_refl _

/-- C7 amended: across every sequence of scroll-driven expansion checks
the surface dimensions are monotonically non-decreasing (page units are
nonnegative whenever the screen size and percentages are, and
`checkAndExpand` only ever adds them); the viewport-resize reaction
`handleResize` is excluded because it resizes the surface to exactly one
recomputed page unit, which `c7_handleResize_shrinks` shows can shrink
it. -/
theorem c7_expansion_checks_monotone (dims : ℚ × ℚ) (evs : List InfiniteEnv)
    (h : ∀ ev ∈ evs, 0 ≤ (InfiniteCanvas.pageUnit ev).1 ∧
      0 ≤ (InfiniteCanvas.pageUnit ev).2) :
    dims.1 ≤ (InfiniteCanvas.applyChecks dims evs).1 ∧
    dims.2 ≤ (InfiniteCanvas.applyChecks dims evs).2 := by
  induction evs generalizing dims with
  | nil => exact ⟨le_refl _, le_refl _⟩
  | cons e es ih =>
    have he := h e (by simp)
    have hstep := applyCheck_monotone dims e he.1 he.2
    have hrest := ih (InfiniteCanvas.applyCheck dims e)
      (fun x hx => h x (by simp [hx]))
    exact ⟨le_trans hstep.1 hrest.1, le_trans hstep.2 hrest.2⟩

/-- Witness for the amended C7: two successive expansion checks in
`demoEnv` situations never shrink a 1000 by 1000 surface. -/
theorem c7_expansion_checks_monotone_witness :
    ((1000 : ℚ), (1000 : ℚ)).1
      ≤ (InfiniteCanvas.applyChecks (1000, 1000) [demoEnv, demoEnv]).1 ∧
    ((1000 : ℚ), (1000 : ℚ)).2
      ≤ (InfiniteCanvas.applyChecks (1000, 1000) [demoEnv, demoEnv]).2 := by
  apply c7_expansion_checks_monotone
  intro ev hev
  have heq : ev = demoEnv := by simpa using hev
  subst heq
  constructor
  · unfold InfiniteCanvas.pageUnit InfiniteCanvas.calculateA4Dimensions demoEnv
    norm_num
  · unfold InfiniteCanvas.pageUnit InfiniteCanvas.calculateA4Dimensions demoEnv
    norm_num

-- =========================================================================
-- Claim C8
-- =========================================================================

/-- C8: loading the serialized blob of a state and restoring it over any
prior state reproduces the timestamp store verbatim (same entries, hence
same ids, times and snapshot strings) and the session settings, provided
the serialized settings are JS-truthy (the restore guards skip falsy
fields). -/
theorem c8_persistence_roundtrip (s0 s1 : AppStateModel) (url ls : String)
    (hc : s0.currentColor ≠ "") (hb : s0.brushSize ≠ 0)
    (hf : s0.fontSize ≠ 0) (hff : s0.fontFamily ≠ "") :
    (StorageManager.roundTrip s0 s1 url ls).timestampedDrawings
      = s0.timestampedDrawings ∧
    (StorageManager.roundTrip s0 s1 url ls).timestampedDrawings.map
        TimestampEntry.id
      = s0.timestampedDrawings.map TimestampEntry.id ∧
    (StorageManager.roundTrip s0 s1 url ls).timestampedDrawings.map
        TimestampEntry.time
      = s0.timestampedDrawings.map TimestampEntry.time ∧
    (StorageManager.roundTrip s0 s1 url ls).timestampedDrawings.map
        TimestampEntry.drawingData
      = s0.timestampedDrawings.map TimestampEntry.drawingData ∧
    (StorageManager.roundTrip s0 s1 url ls).currentColor = s0.currentColor ∧
    (StorageManager.roundTrip s0 s1 url ls).brushSize = s0.brushSize ∧
    (StorageManager.roundTrip s0 s1 url ls).fontSize = s0.fontSize ∧
    (StorageManager.roundTrip s0 s1 url ls).fontFamily = s0.fontFamily := by
  unfold StorageManager.roundTrip StorageManager.loadData
    StorageManager.restoreData StorageManager.saveData
  by_cases hw : s0.a4WidthPercent = 0 <;>
    by_cases hh2 : s0.a4HeightPercent = 0 <;>
      simp [hc, hb, hf, hff, hw, hh2]

/-- Serialized state for the C8 witness. -/
def demoState0 : AppStateModel :=
  ⟨[demoEntryA, demoEntryC], "#ff0000", 4, 24, "Arial", true, 95, 100,
   "dataMain", "dataInf", 950, 900⟩

/-- Unrelated prior state the C8 and C9 witnesses restore over. -/
def demoState1 : AppStateModel :=
  ⟨[demoEntryB], "#00ff00", 9, 12, "Courier", false, 80, 90,
   "otherMain", "otherInf", 500, 400⟩

/-- Witness for C8 on `demoState0` restored over `demoState1`. -/
theorem c8_persistence_roundtrip_witness :
    (StorageManager.roundTrip demoState0 demoState1 "u" "t").timestampedDrawings
      = demoState0.timestampedDrawings ∧
    (StorageManager.roundTrip demoState0 demoState1 "u" "t").currentColor
      = demoState0.currentColor ∧
    (StorageManager.roundTrip demoState0 demoState1 "u" "t").brushSize
      = demoState0.brushSize ∧
    (StorageManager.roundTrip demoState0 demoState1 "u" "t").fontSize
      = demoState0.fontSize ∧
    (StorageManager.roundTrip demoState0 demoState1 "u" "t").fontFamily
      = demoState0.fontFamily := by
  have h := c8_persistence_roundtrip demoState0 demoState1 "u" "t"
    (by decide) (by decide) (by decide) (by decide)
  exact ⟨h.1, h.2.2.2.2.1, h.2.2.2.2.2.1, h.2.2.2.2.2.2.1, h.2.2.2.2.2.2.2⟩

-- =========================================================================
-- Claim C9
-- =========================================================================

/-- C9: a corrupt persisted blob makes `loadData` return null (the catch
around `JSON.parse`), and `restoreData` applied to null returns without
touching any part of the prior in-memory state; an absent key behaves the
same way. -/
theorem c9_malformed_blob_noop (s : AppStateModel) :
    StorageManager.loadData (some StoredBlob.malformed) = none ∧
    StorageManager.restoreData
      (StorageManager.loadData (some StoredBlob.malformed)) s = s ∧
    StorageManager.loadData none = none ∧
    StorageManager.restoreData none s = s :=
  ⟨rfl, rfl, rfl, rfl⟩

/-- Witness for C9 on the concrete prior state `demoState1`. -/
theorem c9_malformed_blob_noop_witness :
    StorageManager.restoreData
      (StorageManager.loadData (some StoredBlob.malformed)) demoState1
      = demoState1 ∧
    StorageManager.loadData (some StoredBlob.malformed) = none :=
  ⟨(c9_malformed_blob_noop demoState1).2.1, (c9_malformed_blob_noop demoState1).1⟩
